import Mathlib

set_option maxHeartbeats 1000000

/-!
Shallow embedding of the molecule representation / spatial-transformation core
and of the genetic-algorithm mutation engine of the stk/MMEA code base.

Python object identity (the basis of the `is` check and of the default `==`
on classes without `__eq__`, such as `StructUnit`) is modelled by giving every
constructed object a natural-number identity drawn from a monotone allocator.
Machine floats are modelled by exact rationals; a possibly non-finite float is
an `Option` rational (`none` = NaN/inf).  Exceptions are modelled by
`Option`/`Except` results.
-/

/-! ## Identity caches (src/stk/molecular/molecules/molecule.py `_Cached`,
src/classes/molecular.py `Cached`) -/

/-- State of a per-class identity cache: an association list from identity
keys to object identities, plus an allocator handing each newly built object
a fresh identity. -/
structure CacheState where
  cache : List (Nat × Nat)
  nextId : Nat
  deriving DecidableEq, Repr

/-- Embedding of `_Cached.__call__` (molecule.py lines 23-33): derive the key
from the bound constructor arguments via `cls._get_key` (the key is taken here
as already derived), return the cached instance when `use_cache` holds and the
key is present, otherwise build a fresh instance, stamp its `_key`, and return
it.  The `__call__` body never writes to `cls._cache`.  Result is
(object identity, whether a new object was built, new state). -/
def stkCachedCall (useCache : Bool) (key : Nat) (s : CacheState) :
    Nat × Bool × CacheState :=
  match useCache, s.cache.lookup key with
  | true, some o => (o, false, s)
  | true, none => (s.nextId, true, ⟨s.cache, s.nextId + 1⟩)
  | false, _ => (s.nextId, true, ⟨s.cache, s.nextId + 1⟩)

/-- Embedding of `Molecule.update_cache` (molecule.py lines 831-853): when the
key is cached, the cached instance keeps its identity and has its attribute
dictionary overwritten (identities are all this model tracks, so the state is
unchanged); otherwise the calling instance becomes the cached entry. -/
def stkUpdateCache (key objId : Nat) (s : CacheState) : CacheState :=
  match s.cache.lookup key with
  | some _ => s
  | none => ⟨(key, objId) :: s.cache, s.nextId⟩

/-- Embedding of `Cached.__call__` (classes/molecular.py lines 18-34): the key
is the tuple of constructor arguments; a hit returns the cached instance, a
miss builds a fresh instance and caches it.  There is no `use_cache`
parameter on this metaclass.  (The weak-value aspect of the dictionary is not
modelled: no entry is ever collected inside one round.) -/
def cageCachedCall (args : Nat) (s : CacheState) : Nat × Bool × CacheState :=
  match s.cache.lookup args with
  | some o => (o, false, s)
  | none => (s.nextId, true, ⟨(args, s.nextId) :: s.cache, s.nextId + 1⟩)

/-! ## Mutation engine data model (src/classes/ga/mutation.py,
src/classes/molecular.py) -/

/-- A `StructUnit` instance: `StructUnit` defines no `__eq__`, so `==` on
building blocks and linkers is Python object identity, modelled by `suId`. -/
structure StructUnitM where
  suId : Nat
  molFile : String
  deriving DecidableEq, Repr

/-- A `Cage` individual as used by the mutation functions: a building-block*
(`StructUnit3`), a linker (`StructUnit2`), a topology template, the output
file, the fitness (`Cage.__eq__` compares this), and the lazily attached
similarity sequences `_similar_bb_mols` / `_similar_lk_mols` (the remaining,
not yet consumed part of the ranked candidate list). -/
structure CageM where
  bb : StructUnitM
  lk : StructUnitM
  topology : Nat
  prist_mol_file : String
  fitness : Option Int
  simBb : Option (List String)
  simLk : Option (List String)
  deriving DecidableEq, Repr

/-- Embedding of `Cage.same_cage` (classes/molecular.py lines 780-800):
building-block*, linker and topology must all compare equal.  `StructUnit`
comparison is object identity (`suId`); topology templates are compared as
values. -/
def sameCage (a b : CageM) : Bool :=
  a.bb.suId == b.bb.suId && a.lk.suId == b.lk.suId && a.topology == b.topology

/-- Embedding of `Cage.__eq__` (classes/molecular.py lines 802-803): fitness
equality, not structural equality. -/
def cageEqPy (a b : CageM) : Bool :=
  a.fitness == b.fitness

/-- Modelled from the spec: `Population.__isub__` (`mutant_pop -= population`,
population module absent from src).  Post-filter of §4.4 step 5: every mutant
structurally identical (by the same-structure check `same_cage`, not fitness
equality) to a member of the source population is discarded. -/
def popSub (mutants pop : List CageM) : List CageM :=
  mutants.filter (fun m => !(pop.any (fun p => sameCage m p)))

/-- Mutable engine state: `Mutation.n_calls` and the object-identity
allocator for freshly constructed `StructUnit` instances. -/
structure MutState where
  nCalls : Nat
  alloc : Nat
  deriving DecidableEq, Repr

/-- The naming template `"mutation_{0}.mol"` applied to `n_calls`
(`self.name.format(self.n_calls)`). -/
def molName (n : Nat) : String :=
  "mutation_" ++ toString n ++ ".mol"

/-- Modelled from the spec: the Topology Assembler / `Cage` assembly
constructor used by the mutation operators, `Cage((bb, lk), topology, file)`.
(The `Cage` initializer in src/classes/molecular.py is an incompatible older
snapshot taking four file arguments and lacking `building_blocks`; the spec's
§4.4 contract is a newly constructed assembled structure from the given
building-block*, linker, topology and fresh output file.)  The new cage has
no fitness yet and no similarity state. -/
def cageInit (bb lk : StructUnitM) (topology : Nat) (file : String) : CageM :=
  { bb := bb, lk := lk, topology := topology, prist_mol_file := file,
    fitness := none, simBb := none, simLk := none }

/-- Leading-match test on character lists (needle is an initial segment of
hay). -/
def leadMatch : List Char → List Char → Bool
  | [], _ => true
  | _ :: _, [] => false
  | a :: as, b :: bs => a == b && leadMatch as bs

/-- Contiguous-substring test on character lists, the model of Python
`needle in hay` on strings. -/
def containsChars (hay needle : List Char) : Bool :=
  match hay with
  | [] => needle.isEmpty
  | _ :: t => leadMatch needle hay || containsChars t needle

/-- Python `needle in hay` on strings. -/
def strIn (needle hay : String) : Bool :=
  containsChars hay.toList needle.toList

/-- Python `f.endswith(".mol")`. -/
def endsMol (f : String) : Bool :=
  leadMatch (".mol").toList.reverse f.toList.reverse

/-- A mutation operator as invoked by the round loop: parent and engine state
in, optional mutant (an exception during the attempt is `none`) and updated
state out. -/
def MutOp : Type :=
  CageM → MutState → Option CageM × MutState

/-- Embedding of `Mutation.random_bb` (mutation.py lines 139-172): draw a
`.mol` file from the database (the random draw is modelled by the first
matching entry; when the database holds no `.mol` file the source loop never
terminates, modelled as a failed attempt), build a fresh `StructUnit3` from
it, keep the parent's linker and topology, and assemble a new cage under the
name template. -/
def randomBb (database : List String) : MutOp := fun cage st =>
  match database.find? endsMol with
  | none => (none, st)
  | some bbFile =>
      (some (cageInit ⟨st.alloc, bbFile⟩ cage.lk cage.topology
          (molName st.nCalls)),
        ⟨st.nCalls, st.alloc + 1⟩)

/-- Embedding of `Mutation.similar_bb` (mutation.py lines 240-293).  `ranked`
is the output of the external similarity oracle `bb.similar_molecules
(database)`: the database candidates, most similar first (the oracle itself is
absent from src).  On the first invocation for a cage the sequence is attached
to the cage; every invocation (the first included) advances it.  `next()` on
an exhausted sequence raises, modelled as `none`.  Result is (optional
mutant, cage with updated `_similar_bb_mols`, new engine state). -/
def similarBbStep (ranked : List String) (cage : CageM) (st : MutState) :
    Option CageM × CageM × MutState :=
  match cage.simBb.getD ranked with
  | [] => (none, { cage with simBb := some [] }, st)
  | f :: rest =>
      (some (cageInit ⟨st.alloc, f⟩ cage.lk cage.topology
          (molName st.nCalls)),
        { cage with simBb := some rest },
        ⟨st.nCalls, st.alloc + 1⟩)

/-- Embedding of `Mutation.similar_lk` (mutation.py lines 295-348), the
linker-side mirror of `similarBbStep`. -/
def similarLkStep (ranked : List String) (cage : CageM) (st : MutState) :
    Option CageM × CageM × MutState :=
  match cage.simLk.getD ranked with
  | [] => (none, { cage with simLk := some [] }, st)
  | f :: rest =>
      (some (cageInit cage.bb ⟨st.alloc, f⟩ cage.topology
          (molName st.nCalls)),
        { cage with simLk := some rest },
        ⟨st.nCalls, st.alloc + 1⟩)

/-- Embedding of the per-parent loop of `Mutation.__call__` (mutation.py
lines 104-128).  `ops i` is the operator drawn by `np.random.choice` at the
i-th iteration.  Each iteration first increments `n_calls`, then attempts the
mutation: on success the (parent, mutant) pair is recorded and the loop
breaks as soon as the count of successful mutations equals the quota
`num_mutations`; on failure (`MacroMolError` is constructed, the exception is
swallowed) the loop continues with the next parent. -/
def mutationRound (ops : Nat → MutOp) (quota : Nat) :
    List CageM → Nat → Nat → MutState → List (CageM × CageM)
  | [], _, _, _ => []
  | parent :: rest, i, numMut, st =>
      let st1 : MutState := ⟨st.nCalls + 1, st.alloc⟩
      match ops i parent st1 with
      | (some mutant, st2) =>
          if numMut + 1 = quota then [(parent, mutant)]
          else (parent, mutant) ::
            mutationRound ops quota rest (i + 1) (numMut + 1) st2
      | (none, st2) => mutationRound ops quota rest (i + 1) numMut st2

/-- Embedding of `Mutation.__call__` end to end (mutation.py lines 104-137):
run the loop over the selected parent pool, then remove from the mutant
population every member already present (structurally) in the source
population. -/
def genMutants (ops : Nat → MutOp) (quota : Nat)
    (population parentPool : List CageM) (st : MutState) : List CageM :=
  popSub ((mutationRound ops quota parentPool 0 0 st).map Prod.snd) population

/-- Freshness invariant for the `StructUnit` identity allocator: every
component identity of the cage was allocated below `a`. -/
def cageFresh (a : Nat) (c : CageM) : Prop :=
  c.bb.suId < a ∧ c.lk.suId < a

instance (a : Nat) (c : CageM) : Decidable (cageFresh a c) :=
  inferInstanceAs (Decidable (And _ _))

/-! ## Geometry: vectors, matrices, the Molecule position store
(src/stk/molecular/molecules/molecule.py) -/

/-- A 3-vector of exact rationals. -/
structure V3 where
  x : ℚ
  y : ℚ
  z : ℚ
  deriving DecidableEq, Repr

def V3.add (a b : V3) : V3 := ⟨a.x + b.x, a.y + b.y, a.z + b.z⟩

def V3.neg (a : V3) : V3 := ⟨-a.x, -a.y, -a.z⟩

def V3.smul (q : ℚ) (v : V3) : V3 := ⟨q * v.x, q * v.y, q * v.z⟩

def V3.div (v : V3) (q : ℚ) : V3 := ⟨v.x / q, v.y / q, v.z / q⟩

def V3.dot (a b : V3) : ℚ := a.x * b.x + a.y * b.y + a.z * b.z

/-- A 3x3 rational matrix, stored by rows. -/
structure M3 where
  r1 : V3
  r2 : V3
  r3 : V3
  deriving DecidableEq, Repr

def M3.mulVec (m : M3) (v : V3) : V3 := ⟨m.r1.dot v, m.r2.dot v, m.r3.dot v⟩

/-- An atom: `symbol` is the Python class name used by the element checks,
`mass` feeds the centre-of-mass query. -/
structure AtomM where
  symbol : String
  atomicNumber : Nat
  charge : Int
  mass : ℚ
  deriving DecidableEq, Repr

structure BondM where
  atom1 : Nat
  atom2 : Nat
  order : Nat
  deriving DecidableEq, Repr

/-- A `Molecule`: immutable atoms and bonds plus the list of conformers
(`self._conformers`).  The source stores each conformer as a 3 x n array;
it is modelled as the per-atom list of positions, which the spec's §4.1
layout note explicitly allows. -/
structure MoleculeM where
  atoms : List AtomM
  bonds : List BondM
  conformers : List (List V3)
  deriving DecidableEq, Repr

/-- Conformer access `self._conformers[conformer_id]`. -/
def confOf (m : MoleculeM) (c : Nat) : List V3 :=
  m.conformers.getD c []

/-- Embedding of `Molecule.apply_displacement` (molecule.py lines 149-172):
add the displacement to every atomic position of the selected conformer. -/
def applyDisplacement (m : MoleculeM) (displacement : V3) (c : Nat) :
    MoleculeM :=
  { m with conformers :=
      m.conformers.set c ((confOf m c).map (fun p => p.add displacement)) }

/-- A possibly non-finite 3-vector of floats: `none` components model NaN or
infinity, the subject of the `np.isfinite` guard. -/
structure FV3 where
  x : Option ℚ
  y : Option ℚ
  z : Option ℚ
  deriving DecidableEq, Repr

def FV3.allFinite (v : FV3) : Bool :=
  v.x.isSome && v.y.isSome && v.z.isSome

def FV3.toV3 (v : FV3) : V3 :=
  ⟨v.x.getD 0, v.y.getD 0, v.z.getD 0⟩

/-- Modelled from the spec: the Geometry Kernel (the `utilities` module,
absent from src) — rotation-matrix construction from a vector pair
(`rotation_matrix`), axis-angle rotation-matrix construction
(`rotation_matrix_arbitrary_axis`) and angle between vectors
(`vector_theta`).  The degenerate-rotation claims hold for any kernel, so it
is a parameter. -/
structure GeomKernel where
  rotationMatrix : V3 → V3 → M3
  rotationMatrixArbitraryAxis : ℚ → V3 → M3
  vectorTheta : V3 → V3 → ℚ

def zHat : V3 := ⟨0, 0, 1⟩

/-- The tolerance of `np.allclose(tstart, [0, 0, 0], 1e-8)`: with a zero
reference the test is componentwise `|t| <= atol = 1e-8`. -/
def tol8 : ℚ := 1 / 100000000

def allCloseZero (v : V3) : Bool :=
  (|v.x| ≤ tol8 : Bool) && (|v.y| ≤ tol8 : Bool) && (|v.z| ≤ tol8 : Bool)

/-- The transformed, z-zeroed `start` vector of
`apply_rotation_to_minimize_theta`: apply `rotation_matrix(axis, [0,0,1])`
and keep only the x and y components. -/
def tstartOf (K : GeomKernel) (axis s : V3) : V3 :=
  let t := (K.rotationMatrix axis zHat).mulVec s
  ⟨t.x, t.y, 0⟩

/-- Embedding of `Molecule.apply_rotation_to_minimize_theta` (molecule.py
lines 286-369).  Non-finite `start` returns the molecule untouched.  After
moving the origin to zero, a transformed `start` that is numerically zero
(parallel to the axis) undoes the displacement and returns.  Otherwise the
angle between the projections is computed, the sign minimizing the residual
angle picked by trying both, and the rotation about the original axis
applied. -/
def applyRotationToMinimizeTheta (K : GeomKernel) (m : MoleculeM)
    (start : FV3) (target axis origin : V3) (c : Nat) : MoleculeM :=
  if !start.allFinite then m else
  let s := start.toV3
  let m1 := applyDisplacement m origin.neg c
  let tstart := tstartOf K axis s
  if allCloseZero tstart then applyDisplacement m1 origin c else
  let rotmat := K.rotationMatrix axis zHat
  let tend0 := rotmat.mulVec target
  let tend : V3 := ⟨tend0.x, tend0.y, 0⟩
  let angle := K.vectorTheta tstart tend
  let r1 := K.rotationMatrixArbitraryAxis angle zHat
  let t1 := K.vectorTheta (r1.mulVec tstart) tend
  let r2 := K.rotationMatrixArbitraryAxis (-angle) zHat
  let t2 := K.vectorTheta (r2.mulVec tstart) tend
  let angle2 := if t2 < t1 then -angle else angle
  let rot := K.rotationMatrixArbitraryAxis angle2 axis
  let m2 : MoleculeM :=
    { m1 with conformers := m1.conformers.set c ((confOf m1 c).map rot.mulVec) }
  applyDisplacement m2 origin c

/-! ## Geometry queries (molecule.py lines 430-558) -/

def dAtom : AtomM := ⟨"X", 0, 0, 0⟩

/-- Position of atom `i` in conformer `c`. -/
def atomPos (m : MoleculeM) (c i : Nat) : V3 :=
  (confOf m c).getD i ⟨0, 0, 0⟩

/-- The `atom_ids=None` default resolves to all atom ids, in order. -/
def resolveIds (m : MoleculeM) (ids : Option (List Nat)) : List Nat :=
  match ids with
  | none => List.range m.atoms.length
  | some l => l

/-- The selected columns `conf[:, atom_ids]`, as the list of selected atom
positions. -/
def selCoords (m : MoleculeM) (ids : Option (List Nat)) (c : Nat) :
    List V3 :=
  (resolveIds m ids).map (atomPos m c)

def vmin (a b : V3) : V3 := ⟨min a.x b.x, min a.y b.y, min a.z b.z⟩

def vmax (a b : V3) : V3 := ⟨max a.x b.x, max a.y b.y, max a.z b.z⟩

/-- `coords.min(axis=1)`: the per-axis minimum corner of a point list (numpy
raises on an empty selection; the zero vector stands in for that unreachable
case). -/
def minCorner : List V3 → V3
  | [] => ⟨0, 0, 0⟩
  | p :: ps => ps.foldl vmin p

/-- `coords.max(axis=1)`: the per-axis maximum corner. -/
def maxCorner : List V3 → V3
  | [] => ⟨0, 0, 0⟩
  | p :: ps => ps.foldl vmax p

/-- Squared Euclidean distance; `scipy.spatial.distance.euclidean` is its
square root. -/
def distSq (a b : V3) : ℚ :=
  (a.x - b.x) ^ 2 + (a.y - b.y) ^ 2 + (a.z - b.z) ^ 2

/-- Embedding of `Molecule.get_maximum_diameter` (molecule.py lines 528-558),
squared: the (squared) Euclidean distance between the per-axis minimum corner
and the per-axis maximum corner of the selected positions. -/
def getMaximumDiameterSq (m : MoleculeM) (ids : Option (List Nat)) (c : Nat) :
    ℚ :=
  distSq (minCorner (selCoords m ids c)) (maxCorner (selCoords m ids c))

def vsum (l : List V3) : V3 := l.foldl V3.add ⟨0, 0, 0⟩

/-- The divisor of `get_centroid`: `len(atom_ids)` after resolving the
default. -/
def centroidDivisor (m : MoleculeM) (ids : Option (List Nat)) : Nat :=
  (resolveIds m ids).length

/-- Embedding of `Molecule.get_centroid` (molecule.py lines 470-496): the
summed selected positions divided by the selection size, with no emptiness
guard (in Lean the division by zero yields zero where numpy yields NaN; the
divisor itself is exposed by `centroidDivisor`). -/
def getCentroid (m : MoleculeM) (ids : Option (List Nat)) (c : Nat) : V3 :=
  V3.div (vsum (selCoords m ids c)) ((centroidDivisor m ids : ℚ))

/-- The spec-side arithmetic mean of a point list. -/
def arithMean (l : List V3) : V3 :=
  V3.div (vsum l) ((l.length : ℚ))

def atomMass (m : MoleculeM) (i : Nat) : ℚ :=
  (m.atoms.getD i dAtom).mass

/-- The `total_mass` accumulator of `get_center_of_mass`. -/
def comTotalMass (m : MoleculeM) (ids : List Nat) : ℚ :=
  ids.foldl (fun acc i => acc + atomMass m i) 0

/-- The `center` accumulator of `get_center_of_mass`: the mass-weighted sum
of the selected positions. -/
def comWeightedSum (m : MoleculeM) (ids : List Nat) (c : Nat) : V3 :=
  ids.foldl (fun acc i => acc.add (V3.smul (atomMass m i) (atomPos m c i)))
    ⟨0, 0, 0⟩

/-- Embedding of `Molecule.get_center_of_mass` (molecule.py lines 430-468):
the mass-weighted position sum divided by the total mass, with no guard on a
zero total mass. -/
def getCenterOfMass (m : MoleculeM) (ids : Option (List Nat)) (c : Nat) :
    V3 :=
  V3.div (comWeightedSum m (resolveIds m ids) c)
    (comTotalMass m (resolveIds m ids))

/-! ## Structure-file updates (molecule.py lines 879-1036) -/

/-- Embedding of `Molecule.set_position_matrix` (molecule.py lines 639-664):
`conformer_id=None` appends a new conformer, otherwise the conformer is
replaced wholesale. -/
def setPositionMatrix (m : MoleculeM) (coords : List V3) (c : Option Nat) :
    MoleculeM :=
  match c with
  | none => { m with conformers := m.conformers ++ [coords] }
  | some i => { m with conformers := m.conformers.set i coords }

/-- An element token of a coordinate file line: either a numeric atomic
number (resolved through `periodic_table`) or an element symbol. -/
inductive ElemTok where
  | numeric (n : Nat)
  | symbol (s : String)
  deriving DecidableEq, Repr

/-- Resolve an element token against `periodic_table` (a `utilities` table
absent from src, taken as a parameter `pt`). -/
def resolveElem (pt : Nat → String) : ElemTok → String
  | .numeric n => pt n
  | .symbol s => s

/-- One parsed atom line of a `.xyz` file. -/
structure XyzLine where
  element : ElemTok
  coords : V3
  deriving DecidableEq, Repr

/-- A `.xyz` file after lexing: the declared atom count of the first line and
the atom lines following the two header lines. -/
structure XyzFile where
  atomCount : Nat
  lines : List XyzLine
  deriving DecidableEq, Repr

inductive XyzErr where
  | countMismatch
  | indexOutOfRange
  | elementMismatch
  | lineCountMismatch
  | emptyContent
  deriving DecidableEq, Repr

/-- The per-line walk of `_update_from_xyz`: compare each line's element with
the in-memory atom at the same index, collecting coordinates.  A line beyond
the atom sequence is the source's `IndexError` at `self.atoms[i]`; atoms left
over at the end of the content is the source's final line-count
`RuntimeError`. -/
def xyzGather (pt : Nat → String) :
    List AtomM → List XyzLine → Except XyzErr (List V3)
  | _ :: _, [] => .error .lineCountMismatch
  | [], [] => .ok []
  | [], _ :: _ => .error .indexOutOfRange
  | a :: as, l :: ls =>
      if resolveElem pt l.element ≠ a.symbol then .error .elementMismatch
      else
        match xyzGather pt as ls with
        | .error e => .error e
        | .ok cs => .ok (l.coords :: cs)

/-- Embedding of `Molecule._update_from_xyz` (molecule.py lines 972-1036):
a declared atom count different from the molecule's raises; the per-line
element-sequence walk raises on any disagreement; with no content lines the
final line-count check reads the unbound loop index, a `NameError` in the
source; only when everything agrees are the positions adopted. -/
def updateFromXyz (pt : Nat → String) (m : MoleculeM) (f : XyzFile)
    (c : Option Nat) : Except XyzErr MoleculeM :=
  if f.atomCount ≠ m.atoms.length then .error .countMismatch
  else if f.lines = [] then .error .emptyContent
  else
    match xyzGather pt m.atoms f.lines with
    | .error e => .error e
    | .ok cs => .ok (setPositionMatrix m cs c)

/-- A `.mol`/`.sdf` file after parsing by the rdkit oracle: the per-atom
element symbols and the conformer positions it stores. -/
structure MolFileData where
  symbols : List String
  positions : List V3
  deriving DecidableEq, Repr

/-- Embedding of `Molecule._update_from_mol` (molecule.py lines 943-970):
the file is parsed (`rdkit.MolFromMolFile` + `remake`) and
`update_from_rdkit_mol` adopts the file conformer's positions wholesale.
No atom-count or element comparison against the in-memory molecule occurs on
this path. -/
def updateFromMol (m : MoleculeM) (d : MolFileData) (c : Option Nat) :
    Except XyzErr MoleculeM :=
  Except.ok (setPositionMatrix m d.positions c)

/-- A structure file as dispatched on by extension in
`Molecule.update_from_file` (molecule.py lines 879-916). -/
inductive StructFileData where
  | molData (d : MolFileData)
  | xyzData (f : XyzFile)
  deriving DecidableEq, Repr

/-- Embedding of the `update_from_file` dispatch: `.mol`/`.sdf` go to the
unchecked rdkit path, `.xyz` to the checked path. -/
def updateFromFile (pt : Nat → String) (m : MoleculeM) (fd : StructFileData)
    (c : Option Nat) : Except XyzErr MoleculeM :=
  match fd with
  | .molData d => updateFromMol m d c
  | .xyzData f => updateFromXyz pt m f c

/-- The pointwise element agreement underlying `xyzGather`: same length and
each resolved file element equal to the in-memory atom's symbol. -/
def elementsAgree (pt : Nat → String) :
    List AtomM → List XyzLine → Bool
  | [], [] => true
  | [], _ :: _ => false
  | _ :: _, [] => false
  | a :: as, l :: ls =>
      (resolveElem pt l.element == a.symbol) && elementsAgree pt as ls

/-! ## StructUnit construction (src/classes/molecular.py lines 109-394) -/

/-- Embedding of `FGInfo` (classes/molecular.py lines 109-120). -/
structure FGInfoM where
  name : String
  smarts_start : String
  smarts_end : String
  target_atomic_num : Nat
  heavy_atomic_num : Nat
  target_symbol : String
  heavy_symbol : String
  deriving DecidableEq, Repr

/-- The registered functional-group table
`FGInfo.functional_group_list` (classes/molecular.py lines 122-134), in
source order. -/
def functionalGroupList : List FGInfoM :=
  [ ⟨"aldehyde", "C(=O)[H]", "[Y]", 6, 39, "C", "Y"⟩,
    ⟨"carboxylic acid", "C(=O)O[H]", "[Zr]=O", 6, 40, "C", "Zr"⟩,
    ⟨"amide", "C(=O)N([H])[H]", "[Nb]=O", 6, 41, "C", "Nb"⟩,
    ⟨"thioacid", "C(=O)S[H]", "[Mo]=O", 6, 42, "C", "Mo"⟩,
    ⟨"alcohol", "O[H]", "[Tc]", 8, 43, "O", "Tc"⟩,
    ⟨"thiol", "[S][H]", "[Ru]", 16, 44, "S", "Ru"⟩,
    ⟨"amine", "[N]([H])[H]", "[Rh]", 7, 45, "N", "Rh"⟩,
    ⟨"nitroso", "N=O", "[Pd]", 7, 46, "N", "Pd"⟩,
    ⟨"boronic acid", "[B](O[H])O[H]", "[Ag]", 5, 47, "B", "Ag"⟩ ]

/-- Embedding of the `func_grp` assignment of `StructUnit.__init__`
(classes/molecular.py lines 333-335): the first table entry whose name occurs
in the pristine file path, `None` when no name occurs. -/
def funcGrpOf (path : String) : Option FGInfoM :=
  functionalGroupList.find? (fun x => strIn x.name path)

/-- `os.path.splitext` on a plain file name: split before the last dot.
(Directory components and leading-dot base names do not occur in the
repository's database paths and are not modelled.) -/
def splitExt (s : String) : String × String :=
  let r := s.toList.reverse
  let sp := r.span (fun ch => ch ≠ '.')
  match sp.2 with
  | [] => (s, "")
  | _ :: restTail =>
      (String.mk restTail.reverse, String.mk ('.' :: sp.1.reverse))

/-- The substituted file path of `_generate_heavy_attrs` (classes/molecular.py
lines 383-386): `'_'.join` of root, `HEAVY`, the functional-group name and
the extension. -/
def heavyFileName (path fgName : String) : String :=
  (splitExt path).1 ++ "_HEAVY_" ++ fgName ++ "_" ++ (splitExt path).2

/-- Modelled from the spec: the external chemistry oracle (rdkit), out of
scope per §1 — file parsing, SMILES derivation and substructure replacement,
exposed as opaque functions over abstract molecule handles. -/
structure ChemOracle where
  molFromMolFile : String → Nat
  molToSmiles : Nat → String
  replaceSubstructs : Nat → String → String → Nat

inductive SUErr where
  | noneTypeAttribute
  deriving DecidableEq, Repr

/-- The attributes of a constructed `StructUnit`. -/
structure StructUnitS where
  prist_mol_file : String
  prist_mol : Nat
  prist_smiles : String
  func_grp : Option FGInfoM
  heavy_mol : Nat
  heavy_mol_file : String
  heavy_smiles : String
  deriving DecidableEq, Repr

/-- Embedding of `StructUnit.__init__` together with
`_generate_heavy_attrs` / `_make_atoms_heavy_in_heavy` (classes/molecular.py
lines 302-394, 551-559): parse the pristine file, derive its SMILES, match
the functional group from the path, then build the substituted molecule,
file path and SMILES.  With `func_grp = None`,
`_make_atoms_heavy_in_heavy` reads `self.func_grp.smarts_start` and the
construction dies with an `AttributeError`. -/
def structUnitInit (ch : ChemOracle) (path : String) :
    Except SUErr StructUnitS :=
  let pm := ch.molFromMolFile path
  let ps := ch.molToSmiles pm
  match funcGrpOf path with
  | none => .error .noneTypeAttribute
  | some g =>
      let hm := ch.replaceSubstructs pm g.smarts_start g.smarts_end
      .ok { prist_mol_file := path, prist_mol := pm, prist_smiles := ps,
            func_grp := some g, heavy_mol := hm,
            heavy_mol_file := heavyFileName path g.name,
            heavy_smiles := ch.molToSmiles hm }

/-! ## Auxiliary predicates and concrete sample data used by the theorems -/

/-- Componentwise order on 3-vectors. -/
def vleq (a b : V3) : Prop :=
  a.x ≤ b.x ∧ a.y ≤ b.y ∧ a.z ≤ b.z

/-- Whether an `Except` computation succeeded. -/
def exOk {ε α : Type} (e : Except ε α) : Bool :=
  match e with
  | .ok _ => true
  | .error _ => false

/-- A three-cage sample population with component identities below 10. -/
def pool0 : List CageM :=
  [ ⟨⟨0, "b0.mol"⟩, ⟨1, "l0.mol"⟩, 0, "c0.mol", none, none, none⟩,
    ⟨⟨2, "b1.mol"⟩, ⟨3, "l1.mol"⟩, 0, "c1.mol", none, none, none⟩,
    ⟨⟨4, "b2.mol"⟩, ⟨5, "l2.mol"⟩, 1, "c2.mol", none, none, none⟩ ]

/-- A sample population member. -/
def pA : CageM := ⟨⟨0, "b.mol"⟩, ⟨1, "l.mol"⟩, 0, "p.mol", some 1, none, none⟩

/-- Structurally identical to `pA` (same components and topology) but with a
different fitness. -/
def mDup : CageM :=
  ⟨⟨0, "b.mol"⟩, ⟨1, "l.mol"⟩, 0, "m.mol", some 2, none, none⟩

/-- Fitness-equal to `pA` but structurally new (fresh building-block*). -/
def mNew : CageM :=
  ⟨⟨7, "b.mol"⟩, ⟨1, "l.mol"⟩, 0, "m2.mol", some 1, none, none⟩

/-- A parent cage with no similarity state attached yet. -/
def cageS : CageM := ⟨⟨0, "b.mol"⟩, ⟨1, "l.mol"⟩, 0, "c.mol", none, none, none⟩

/-- A concrete geometry kernel (identity rotations) for witnesses. -/
def kernel0 : GeomKernel :=
  ⟨fun _ _ => ⟨⟨1, 0, 0⟩, ⟨0, 1, 0⟩, ⟨0, 0, 1⟩⟩,
   fun _ _ => ⟨⟨1, 0, 0⟩, ⟨0, 1, 0⟩, ⟨0, 0, 1⟩⟩,
   fun _ _ => 0⟩

/-- A one-atom, one-conformer molecule. -/
def mol0 : MoleculeM := ⟨[⟨"C", 6, 0, 12⟩], [], [[⟨1, 2, 3⟩]]⟩

/-- A two-hydrogen molecule with one conformer. -/
def molHH : MoleculeM :=
  ⟨[⟨"H", 1, 0, 1⟩, ⟨"H", 1, 0, 1⟩], [], [[⟨0, 0, 0⟩, ⟨1, 0, 0⟩]]⟩

/-- A parsed `.mol` file holding three atoms — one more than `molHH`. -/
def molData3 : MolFileData :=
  ⟨["O", "O", "O"], [⟨0, 0, 0⟩, ⟨1, 1, 1⟩, ⟨2, 2, 2⟩]⟩

/-- A periodic table stub. -/
def pt0 : Nat → String := fun _ => "X"

/-- A `.xyz` file agreeing with `molHH` in count and element sequence. -/
def xyzGood : XyzFile :=
  ⟨2, [⟨ElemTok.symbol ("H"), ⟨3, 3, 3⟩⟩, ⟨ElemTok.symbol ("H"), ⟨4, 4, 4⟩⟩]⟩

/-- A chemistry-oracle stub. -/
def chem0 : ChemOracle := ⟨fun _ => 0, fun _ => ("s"), fun _ _ _ => 0⟩

/-- The amide entry of the functional-group table. -/
def fgAmide : FGInfoM := ⟨"amide", "C(=O)N([H])[H]", "[Nb]=O", 6, 41, "C", "Nb"⟩

/-- Four atoms forming a square in the xy-plane with side 100. -/
def sqMol : MoleculeM :=
  ⟨[⟨"C", 6, 0, 12⟩, ⟨"C", 6, 0, 12⟩, ⟨"C", 6, 0, 12⟩, ⟨"C", 6, 0, 12⟩], [],
   [[⟨50, 50, 0⟩, ⟨-50, 50, 0⟩, ⟨-50, -50, 0⟩, ⟨50, -50, 0⟩]]⟩

/-- A two-atom molecule with masses 1 and 3. -/
def mol2 : MoleculeM :=
  ⟨[⟨"H", 1, 0, 1⟩, ⟨"Li", 3, 0, 3⟩], [], [[⟨0, 0, 0⟩, ⟨2, 0, 0⟩]]⟩

/-! ## Helper lemmas -/

theorem listGetD_of_le {α : Type} (l : List α) :
    ∀ (i : Nat) (d : α), l.length ≤ i → l.getD i d = d := by
  induction l with
  | nil => intro i d _; simp [List.getD]
  | cons a t ih =>
      intro i d h
      cases i with
      | zero => simp at h
      | succ n => simpa using ih n d (by simpa using h)

theorem listSet_of_le {α : Type} (l : List α) :
    ∀ (i : Nat) (v : α), l.length ≤ i → l.set i v = l := by
  induction l with
  | nil => intro i v _; simp
  | cons a t ih =>
      intro i v h
      cases i with
      | zero => simp at h
      | succ n => simpa using ih n v (by simpa using h)

theorem listGetD_set_self {α : Type} (l : List α) :
    ∀ (i : Nat) (v d : α), i < l.length → (l.set i v).getD i d = v := by
  induction l with
  | nil => intro i v d h; simp at h
  | cons a t ih =>
      intro i v d h
      cases i with
      | zero => simp [List.getD]
      | succ n => simpa using ih n v d (by simpa using h)

theorem listSet_getD_self {α : Type} (l : List α) :
    ∀ (i : Nat) (d : α), i < l.length → l.set i (l.getD i d) = l := by
  induction l with
  | nil => intro i d h; simp at h
  | cons a t ih =>
      intro i d h
      cases i with
      | zero => simp [List.getD]
      | succ n => simpa using ih n d (by simpa using h)

/-! ## Claim C1 -/

/-- Claim C1 counterexample: on the stk `_Cached` metaclass, constructing
twice from an empty cache with identical arguments (hence an identical key)
and `use_cache=true` builds a second, distinct instance — `__call__` never
populates the cache, so the second construction misses. -/
theorem stk_cache_double_construction_not_shared :
    (stkCachedCall true 7 (stkCachedCall true 7 ⟨[], 0⟩).2.2).1 ≠
        (stkCachedCall true 7 ⟨[], 0⟩).1 ∧
      (stkCachedCall true 7 (stkCachedCall true 7 ⟨[], 0⟩).2.2).2.1 = true := by
  decide

/-- Claim C1 (amended): the `Cage` cache (metaclass `Cached`, which has no
`use_cache` parameter) returns the identical live instance on a repeated
construction with the same arguments, building nothing new.  The stk
`_Cached` cache returns the existing instance (no build, state untouched)
only when the key is already present; `use_cache=false` always builds a
fresh instance (the allocator's next identity) and leaves the cache alone;
construction never populates the `_Cached` cache under any flag — only
`update_cache` does, after which re-construction with `use_cache=true` does
return the original instance. -/
theorem identity_cache_contract :
    ∀ (args key : Nat) (s : CacheState) (o : Nat),
      ((cageCachedCall args (cageCachedCall args s).2.2).1 =
          (cageCachedCall args s).1 ∧
        (cageCachedCall args (cageCachedCall args s).2.2).2.1 = false) ∧
      (s.cache.lookup key = some o → stkCachedCall true key s = (o, false, s)) ∧
      ((stkCachedCall false key s).1 = s.nextId ∧
        (stkCachedCall false key s).2.1 = true ∧
        (stkCachedCall false key s).2.2.cache = s.cache) ∧
      (∀ u : Bool, (stkCachedCall u key s).2.2.cache = s.cache) ∧
      ((stkCachedCall true key
            (stkUpdateCache key (stkCachedCall true key s).1
              (stkCachedCall true key s).2.2)).1 =
          (stkCachedCall true key s).1 ∧
        (stkCachedCall true key
            (stkUpdateCache key (stkCachedCall true key s).1
              (stkCachedCall true key s).2.2)).2.1 = false) := by
  intro args key s o
  refine ⟨?_, ?_, ?_, ?_, ?_⟩
  · cases h : s.cache.lookup args with
    | some v => simp [cageCachedCall, h]
    | none => simp [cageCachedCall, h, List.lookup]
  · intro h; simp [stkCachedCall, h]
  · cases h : s.cache.lookup key with
    | some v => simp [stkCachedCall, h]
    | none => simp [stkCachedCall, h]
  · intro u
    cases u <;> cases h : s.cache.lookup key <;> simp [stkCachedCall, h]
  · cases h : s.cache.lookup key with
    | some v => simp [stkCachedCall, stkUpdateCache, h]
    | none => simp [stkCachedCall, stkUpdateCache, h, List.lookup]

/-- Claim C1 witness: a concrete cache holding key 5 with instance 9, from
which construction with `use_cache=true` returns instance 9 without
building. -/
theorem identity_cache_contract_witness :
    (⟨[(5, 9)], 10⟩ : CacheState).cache.lookup 5 = some 9 ∧
      stkCachedCall true 5 ⟨[(5, 9)], 10⟩ = (9, false, ⟨[(5, 9)], 10⟩) :=
  ⟨by decide, (identity_cache_contract 3 5 ⟨[(5, 9)], 10⟩ 9).2.1 (by decide)⟩

/-! ## Claim C2 -/

theorem mutationRound_length_of_success (ops : Nat → MutOp) (quota : Nat)
    (hops : ∀ i c s, ((ops i c s).1).isSome = true) :
    ∀ (pool : List CageM) (i numMut : Nat) (st : MutState),
      numMut < quota →
      (mutationRound ops quota pool i numMut st).length =
        min (quota - numMut) pool.length := by
  intro pool
  induction pool with
  | nil => intro i numMut st _; simp [mutationRound]
  | cons p rest ih =>
      intro i numMut st h
      have hs := hops i p ⟨st.nCalls + 1, st.alloc⟩
      cases hm : ops i p ⟨st.nCalls + 1, st.alloc⟩ with
      | mk fst snd =>
          cases fst with
          | none => rw [hm] at hs; simp at hs
          | some mutant =>
              by_cases hq : numMut + 1 = quota
              · simp only [mutationRound, hm, if_pos hq, List.length_cons,
                  List.length_nil]
                omega
              · simp only [mutationRound, hm, if_neg hq, List.length_cons]
                rw [ih (i + 1) (numMut + 1) snd (by omega)]
                omega

theorem mutationRound_randomBb_distinct (db : List String) (quota : Nat) :
    ∀ (pool : List CageM) (i numMut : Nat) (st : MutState),
      (∀ c ∈ pool, cageFresh st.alloc c) →
      ∀ pr ∈ mutationRound (fun _ => randomBb db) quota pool i numMut st,
        sameCage pr.2 pr.1 = false := by
  intro pool
  induction pool with
  | nil => intro i numMut st _ pr hpr; simp [mutationRound] at hpr
  | cons p rest ih =>
      intro i numMut st hfresh pr hpr
      cases hf : db.find? endsMol with
      | none =>
          simp only [mutationRound, randomBb, hf] at hpr
          exact ih (i + 1) numMut ⟨st.nCalls + 1, st.alloc⟩
            (fun c hc => hfresh c (List.mem_cons_of_mem p hc)) pr hpr
      | some f =>
          have hbb : st.alloc ≠ p.bb.suId := by
            have := (hfresh p (List.mem_cons_self p rest)).1
            omega
          have hdist :
              sameCage
                (cageInit ⟨st.alloc, f⟩ p.lk p.topology
                  (molName (st.nCalls + 1))) p = false := by
            simp [sameCage, cageInit, hbb]
          simp only [mutationRound, randomBb, hf] at hpr
          by_cases hq : numMut + 1 = quota
          · simp only [hq, if_true, List.mem_singleton] at hpr
            subst hpr
            exact hdist
          · simp only [if_neg hq, List.mem_cons] at hpr
            cases hpr with
            | inl h => subst h; exact hdist
            | inr h =>
                exact ih (i + 1) (numMut + 1) ⟨st.nCalls + 1, st.alloc + 1⟩
                  (fun c hc => by
                    obtain ⟨h1, h2⟩ := hfresh c (List.mem_cons_of_mem p hc)
                    exact ⟨Nat.lt_succ_of_lt h1, Nat.lt_succ_of_lt h2⟩) pr h

/-- Claim C2: in a mutation round in which every operator invocation succeeds
— for any operator assignment, or concretely for the `random_bb` operator
over a database holding a `.mol` file — the per-parent loop produces exactly
`min(K, N)` mutants before post-filtering, where K is the quota
`num_mutations` and N the size of the selected parent pool, stopping at the
quota or at pool exhaustion; and (for `random_bb`, under the allocator
freshness invariant) every mutant is structurally distinct from its parent in
the sense of `same_cage`. -/
theorem mutation_round_quota :
    ∀ (quota : Nat) (pool : List CageM) (st : MutState) (ops : Nat → MutOp)
      (db : List String),
      1 ≤ quota →
      ((∀ i c s, ((ops i c s).1).isSome = true) →
        (mutationRound ops quota pool 0 0 st).length = min quota pool.length) ∧
      ((db.find? endsMol).isSome = true →
        (∀ c ∈ pool, cageFresh st.alloc c) →
        (mutationRound (fun _ => randomBb db) quota pool 0 0 st).length =
            min quota pool.length ∧
          ∀ pr ∈ mutationRound (fun _ => randomBb db) quota pool 0 0 st,
            sameCage pr.2 pr.1 = false) := by
  intro quota pool st ops db hq
  constructor
  · intro hops
    have := mutationRound_length_of_success ops quota hops pool 0 0 st
      (by omega)
    simpa using this
  · intro hdb hfresh
    refine ⟨?_, mutationRound_randomBb_distinct db quota pool 0 0 st hfresh⟩
    have hops : ∀ i c s, (((fun _ => randomBb db : Nat → MutOp) i c s).1).isSome
        = true := by
      intro i c s
      cases hf : db.find? endsMol with
      | none => rw [hf] at hdb; simp at hdb
      | some f => simp [randomBb, hf]
    have := mutationRound_length_of_success (fun _ => randomBb db) quota hops
      pool 0 0 st (by omega)
    simpa using this

/-- Claim C2 witness: a three-cage pool, quota 2, a database holding one
`.mol` file — two mutants, each structurally distinct from its parent. -/
theorem mutation_round_quota_witness :
    (mutationRound (fun _ => randomBb ["a.mol"]) 2 pool0 0 0 ⟨0, 10⟩).length =
        min 2 pool0.length ∧
      ∀ pr ∈ mutationRound (fun _ => randomBb ["a.mol"]) 2 pool0 0 0 ⟨0, 10⟩,
        sameCage pr.2 pr.1 = false :=
  (mutation_round_quota 2 pool0 ⟨0, 10⟩ (fun _ c s => (some c, s)) ["a.mol"]
      (by decide)).2 (by decide) (by decide)

/-! ## Claim C3 -/

theorem mutationRound_all_fail (ops : Nat → MutOp) (quota : Nat)
    (hops : ∀ i c s, (ops i c s).1 = none) :
    ∀ (pool : List CageM) (i numMut : Nat) (st : MutState),
      mutationRound ops quota pool i numMut st = [] := by
  intro pool
  induction pool with
  | nil => intro i numMut st; simp [mutationRound]
  | cons p rest ih =>
      intro i numMut st
      have hs := hops i p ⟨st.nCalls + 1, st.alloc⟩
      cases hm : ops i p ⟨st.nCalls + 1, st.alloc⟩ with
      | mk fst snd =>
          rw [hm] at hs
          simp only at hs
          subst hs
          simp only [mutationRound, hm]
          exact ih (i + 1) numMut snd

/-- Claim C3: any failure of a mutation attempt is absorbed inside the
per-parent loop (the loop step on a failing parent is exactly the loop on the
remaining parents, with `n_calls` already incremented), and when every
attempt fails the round terminates normally with an empty output
population. -/
theorem mutation_failure_isolation :
    ∀ (ops : Nat → MutOp), (∀ i c s, (ops i c s).1 = none) →
      ∀ (quota : Nat) (population pool : List CageM) (st : MutState),
        genMutants ops quota population pool st = [] ∧
        (∀ (p : CageM) (rest : List CageM) (i numMut : Nat) (s1 : MutState),
          mutationRound ops quota (p :: rest) i numMut s1 =
            mutationRound ops quota rest (i + 1) numMut
              ((ops i p ⟨s1.nCalls + 1, s1.alloc⟩).2)) := by
  intro ops hops quota population pool st
  constructor
  · simp [genMutants, popSub, mutationRound_all_fail ops quota hops]
  · intro p rest i numMut s1
    have hs := hops i p ⟨s1.nCalls + 1, s1.alloc⟩
    cases hm : ops i p ⟨s1.nCalls + 1, s1.alloc⟩ with
    | mk fst snd =>
        rw [hm] at hs
        simp only at hs
        subst hs
        simp [mutationRound, hm]

/-- Claim C3 witness: an always-failing operator set over a concrete pool
yields the empty output population. -/
theorem mutation_failure_isolation_witness :
    genMutants (fun _ _ s => (none, s)) 3 pool0 pool0 ⟨0, 10⟩ = [] :=
  (mutation_failure_isolation (fun _ _ s => (none, s)) (fun _ _ _ => rfl) 3
      pool0 pool0 ⟨0, 10⟩).1

/-! ## Claim C4 -/

/-- Claim C4: the post-filter `mutant_pop -= population` discards from the
round's output every mutant that is structurally identical — in the
`same_cage` sense — to a member of the source population; a mutant with no
`same_cage` partner in the population survives the filter even when it is
`==`-equal (fitness-equal) to a population member. -/
theorem mutation_post_filter_dedup :
    ∀ (ops : Nat → MutOp) (quota : Nat) (population pool : List CageM)
      (st : MutState) (m p : CageM),
      (p ∈ population → sameCage m p = true →
        m ∉ genMutants ops quota population pool st) ∧
      (∀ mutants : List CageM, m ∈ mutants →
        (∀ q ∈ population, sameCage m q = false) →
        (∃ q ∈ population, cageEqPy m q = true) →
        m ∈ popSub mutants population) := by
  intro ops quota population pool st m p
  constructor
  · intro hp hsame hmem
    simp only [genMutants, popSub, List.mem_filter, Bool.not_eq_true',
      List.any_eq_false] at hmem
    have := hmem.2 p hp
    rw [hsame] at this
    exact absurd this (by simp)
  · intro mutants hm hnone _
    simp only [popSub, List.mem_filter, Bool.not_eq_true', List.any_eq_false]
    exact ⟨hm, fun q hq => by simp [hnone q hq]⟩

/-- Claim C4 witness: `mDup` (structurally identical to population member
`pA`, though with a different fitness) is discarded; `mNew` (fitness-equal
to `pA` but structurally new) is kept. -/
theorem mutation_post_filter_dedup_witness :
    (mDup ∉ genMutants (fun _ c s => (some c, s)) 1 [pA] [] ⟨0, 0⟩) ∧
      mNew ∈ popSub [mNew] [pA] :=
  ⟨(mutation_post_filter_dedup (fun _ c s => (some c, s)) 1 [pA] [] ⟨0, 0⟩
      mDup pA).1 (by decide) (by decide),
    (mutation_post_filter_dedup (fun _ c s => (some c, s)) 1 [pA] [] ⟨0, 0⟩
      mNew pA).2 [mNew] (by decide) (by decide) ⟨pA, by decide, by decide⟩⟩

/-! ## Claim C5 -/

/-- Claim C5 counterexample: with a ranked database of 3 candidates the third
invocation of the similarity-ranked swap on the same parent still succeeds
(it returns the 3rd most similar candidate); the claimed sequence-exhaustion
failure does not occur until the fourth invocation. -/
theorem similar_mutation_third_call_succeeds :
    (let r1 := similarBbStep ["a.mol", "b.mol", "c.mol"] cageS ⟨0, 10⟩
     let r2 := similarBbStep ["a.mol", "b.mol", "c.mol"] r1.2.1 r1.2.2
     (similarBbStep ["a.mol", "b.mol", "c.mol"] r2.2.1 r2.2.2).1.isSome) =
      true := by
  decide

/-- Claim C5 (amended): the first similarity-ranked swap on a parent attaches
the ranked most-similar-first sequence as per-parent state and each
invocation advances it; with a ranked database of 3 candidates the first
three invocations return the 1st, 2nd and 3rd most similar candidates, and
the fourth invocation fails with sequence exhaustion (caught by the round's
per-attempt isolation). -/
theorem similar_mutation_sequencing :
    ∀ (f1 f2 f3 : String) (cage : CageM) (st : MutState),
      cage.simBb = none →
      (let r1 := similarBbStep [f1, f2, f3] cage st
       let r2 := similarBbStep [f1, f2, f3] r1.2.1 r1.2.2
       let r3 := similarBbStep [f1, f2, f3] r2.2.1 r2.2.2
       let r4 := similarBbStep [f1, f2, f3] r3.2.1 r3.2.2
       r1.1.map (fun m => m.bb.molFile) = some f1 ∧
         r2.1.map (fun m => m.bb.molFile) = some f2 ∧
         r3.1.map (fun m => m.bb.molFile) = some f3 ∧
         r4.1 = none) := by
  intro f1 f2 f3 cage st h
  simp [similarBbStep, h, cageInit]

/-- Claim C5 witness: the amended sequencing at a concrete parent and a
concrete 3-candidate ranked database. -/
theorem similar_mutation_sequencing_witness :
    cageS.simBb = none ∧
      (let r1 := similarBbStep ["a.mol", "b.mol", "c.mol"] cageS ⟨0, 10⟩
       let r2 := similarBbStep ["a.mol", "b.mol", "c.mol"] r1.2.1 r1.2.2
       let r3 := similarBbStep ["a.mol", "b.mol", "c.mol"] r2.2.1 r2.2.2
       let r4 := similarBbStep ["a.mol", "b.mol", "c.mol"] r3.2.1 r3.2.2
       r1.1.map (fun m => m.bb.molFile) = some ("a.mol") ∧
         r2.1.map (fun m => m.bb.molFile) = some ("b.mol") ∧
         r3.1.map (fun m => m.bb.molFile) = some ("c.mol") ∧
         r4.1 = none) :=
  ⟨rfl, similar_mutation_sequencing ("a.mol") ("b.mol") ("c.mol") cageS
    ⟨0, 10⟩ rfl⟩

/-! ## Claim C6 -/

theorem v3_add_neg_add_cancel (p o : V3) : (p.add o.neg).add o = p := by
  cases p
  cases o
  simp only [V3.add, V3.neg, V3.mk.injEq]
  refine ⟨by ring, by ring, by ring⟩

theorem map_add_neg_add_cancel (o : V3) (l : List V3) :
    (l.map (fun p => p.add o.neg)).map (fun p => p.add o) = l := by
  rw [List.map_map]
  have h : ∀ p ∈ l, ((fun p => p.add o) ∘ fun p => p.add o.neg) p = id p := by
    intro p _
    simpa using v3_add_neg_add_cancel p o
  rw [List.map_congr_left h, List.map_id]

theorem applyDisplacement_neg_cancel (m : MoleculeM) (o : V3) (c : Nat) :
    applyDisplacement (applyDisplacement m o.neg c) o c = m := by
  rcases Nat.lt_or_ge c m.conformers.length with hc | hc
  · simp only [applyDisplacement, confOf]
    rw [listGetD_set_self m.conformers c _ [] hc, List.set_set,
      map_add_neg_add_cancel, listSet_getD_self m.conformers c [] hc]
  · simp only [applyDisplacement, confOf]
    rw [listSet_of_le m.conformers c _ hc, listSet_of_le m.conformers c _ hc]

/-- Claim C6: `apply_rotation_to_minimize_theta` is a no-op — returning the
molecule with its conformers, atoms and bonds untouched — when (a) `start`
has a non-finite component, or (b) the projection of `start` onto the plane
orthogonal to `axis` (the transformed, z-zeroed `tstart`) is numerically
zero, i.e. `start` is parallel to `axis`; for every geometry kernel, every
molecule and every conformer. -/
theorem rotation_minimize_theta_noop :
    ∀ (K : GeomKernel) (m : MoleculeM) (start : FV3)
      (target axis origin : V3) (c : Nat),
      (start.allFinite = false →
        applyRotationToMinimizeTheta K m start target axis origin c = m) ∧
      (start.allFinite = true →
        allCloseZero (tstartOf K axis start.toV3) = true →
        applyRotationToMinimizeTheta K m start target axis origin c = m) := by
  intro K m start target axis origin c
  constructor
  · intro h
    simp [applyRotationToMinimizeTheta, h]
  · intro h1 h2
    simp only [applyRotationToMinimizeTheta, h1, Bool.not_true,
      Bool.false_eq_true, if_false, h2, if_true]
    exact applyDisplacement_neg_cancel m origin c

/-- Claim C6 witness: a concrete kernel, molecule, and a `start` parallel to
the axis (transformed projection exactly zero): the operation returns the
molecule unchanged. -/
theorem rotation_minimize_theta_noop_witness :
    allCloseZero (tstartOf kernel0 ⟨0, 0, 1⟩
        (FV3.mk (some 0) (some 0) (some 5)).toV3) = true ∧
      applyRotationToMinimizeTheta kernel0 mol0 ⟨some 0, some 0, some 5⟩
        ⟨1, 0, 0⟩ ⟨0, 0, 1⟩ ⟨1, 1, 1⟩ 0 = mol0 :=
  ⟨by simp [allCloseZero, tstartOf, kernel0, M3.mulVec, V3.dot, FV3.toV3,
      zHat, tol8],
    (rotation_minimize_theta_noop kernel0 mol0 ⟨some 0, some 0, some 5⟩
      ⟨1, 0, 0⟩ ⟨0, 0, 1⟩ ⟨1, 1, 1⟩ 0).2 (by decide)
      (by simp [allCloseZero, tstartOf, kernel0, M3.mulVec, V3.dot, FV3.toV3,
        zHat, tol8])⟩

/-! ## Claim C7 -/

theorem xyzGather_ok_eq (pt : Nat → String) :
    ∀ (atoms : List AtomM) (lines : List XyzLine),
      exOk (xyzGather pt atoms lines) = elementsAgree pt atoms lines := by
  intro atoms
  induction atoms with
  | nil => intro lines; cases lines <;> simp [xyzGather, elementsAgree, exOk]
  | cons a as ih =>
      intro lines
      cases lines with
      | nil => simp [xyzGather, elementsAgree, exOk]
      | cons l ls =>
          by_cases h : resolveElem pt l.element = a.symbol
          · have hcond : ¬ (resolveElem pt l.element ≠ a.symbol) := by
              simpa using h
            simp only [xyzGather, if_neg hcond, elementsAgree]
            have hb : (resolveElem pt l.element == a.symbol) = true := by
              simp [h]
            rw [hb, Bool.true_and, ← ih ls]
            cases hg : xyzGather pt as ls <;> simp [exOk, hg]
          · simp only [xyzGather, if_pos h, elementsAgree]
            have hb : (resolveElem pt l.element == a.symbol) = false := by
              simp [h]
            rw [hb, Bool.false_and]
            simp [exOk]

theorem xyzGather_ok_coords (pt : Nat → String) :
    ∀ (atoms : List AtomM) (lines : List XyzLine) (cs : List V3),
      xyzGather pt atoms lines = .ok cs →
      cs = lines.map (fun l => l.coords) := by
  intro atoms
  induction atoms with
  | nil =>
      intro lines cs h
      cases lines with
      | nil => simp [xyzGather] at h; simp [h.symm]
      | cons l ls => simp [xyzGather] at h
  | cons a as ih =>
      intro lines cs h
      cases lines with
      | nil => simp [xyzGather] at h
      | cons l ls =>
          by_cases hc : resolveElem pt l.element ≠ a.symbol
          · simp [xyzGather, if_pos hc] at h
          · simp only [xyzGather, if_neg hc] at h
            cases hg : xyzGather pt as ls with
            | error e => rw [hg] at h; simp at h
            | ok cs' =>
                rw [hg] at h
                simp only [Except.ok.injEq] at h
                rw [← h, ih ls cs' hg]
                simp

/-- Claim C7 (amended): for the `.xyz` update path, the update succeeds
exactly when the declared atom count matches, the content is non-empty, and
the per-atom element sequence agrees with the in-memory molecule; on success
the positions are exactly the file's coordinates, and on any disagreement an
error is surfaced.  For the `.mol`/`.sdf` path, however, the file's
positions are adopted unconditionally — no atom-count or element check is
performed. -/
theorem update_from_file_mismatch :
    ∀ (pt : Nat → String) (m : MoleculeM) (f : XyzFile) (d : MolFileData)
      (c : Option Nat),
      (exOk (updateFromXyz pt m f c) = true ↔
        (f.atomCount = m.atoms.length ∧ f.lines ≠ [] ∧
          elementsAgree pt m.atoms f.lines = true)) ∧
      (∀ m', updateFromXyz pt m f c = .ok m' →
        m' = setPositionMatrix m (f.lines.map (fun l => l.coords)) c) ∧
      (updateFromMol m d c = Except.ok (setPositionMatrix m d.positions c)) :=
  by
  intro pt m f d c
  refine ⟨?_, ?_, rfl⟩
  · constructor
    · intro hok
      unfold updateFromXyz at hok
      split_ifs at hok with h1 h2
      · simp [exOk] at hok
      · simp [exOk] at hok
      · cases hg : xyzGather pt m.atoms f.lines with
        | error e => rw [hg] at hok; simp [exOk] at hok
        | ok cs =>
            refine ⟨by omega, h2, ?_⟩
            rw [← xyzGather_ok_eq pt m.atoms f.lines, hg]
            simp [exOk]
    · rintro ⟨h1, h2, h3⟩
      unfold updateFromXyz
      rw [if_neg (by simp [h1]), if_neg h2]
      have he := xyzGather_ok_eq pt m.atoms f.lines
      rw [h3] at he
      cases hg : xyzGather pt m.atoms f.lines with
      | error e => rw [hg] at he; simp [exOk] at he
      | ok cs => simp [exOk]
  · intro m' hm'
    unfold updateFromXyz at hm'
    by_cases h1 : f.atomCount ≠ m.atoms.length
    · rw [if_pos h1] at hm'
      exact Except.noConfusion hm'
    · rw [if_neg h1] at hm'
      by_cases h2 : f.lines = []
      · rw [if_pos h2] at hm'
        exact Except.noConfusion hm'
      · rw [if_neg h2] at hm'
        cases hg : xyzGather pt m.atoms f.lines with
        | error e => rw [hg] at hm'; exact Except.noConfusion hm'
        | ok cs =>
            rw [hg] at hm'
            simp only [Except.ok.injEq] at hm'
            rw [← hm', xyzGather_ok_coords pt m.atoms f.lines cs hg]

/-- Claim C7 counterexample: updating a two-atom molecule from a `.mol` file
holding three atoms raises no error — the three positions silently replace
the conformer. -/
theorem update_from_mol_silent_mismatch :
    molData3.positions.length ≠ molHH.atoms.length ∧
      updateFromFile pt0 molHH (StructFileData.molData molData3) (some 0) =
        Except.ok (setPositionMatrix molHH molData3.positions (some 0)) ∧
      (setPositionMatrix molHH molData3.positions (some 0)).conformers.getD 0
          [] = molData3.positions := by
  refine ⟨by decide, rfl, by decide⟩

/-- Claim C7 witness: a `.xyz` file agreeing with the molecule in count and
elements is accepted and its coordinates adopted. -/
theorem update_from_file_mismatch_witness :
    exOk (updateFromXyz pt0 molHH xyzGood (some 0)) = true ∧
      updateFromMol molHH molData3 (some 0) =
        Except.ok (setPositionMatrix molHH molData3.positions (some 0)) :=
  ⟨(update_from_file_mismatch pt0 molHH xyzGood molData3 (some 0)).1.mpr
      (by refine ⟨by decide, by decide, by decide⟩),
    (update_from_file_mismatch pt0 molHH xyzGood molData3 (some 0)).2.2⟩

/-! ## Claim C8 -/

/-- Claim C8 (amended): constructing a structural unit sets `func_grp` to the
first entry of the registered functional-group table whose name occurs in the
file path (first match by table order, and a match implies its name does
occur in the path; a name occurring implies a match is found), and
construction then completes with the substituted outputs (substituted mol
handle, substituted SMILES, substituted file path).  When no entry's name
occurs in the path, `func_grp` is `None` and construction does not complete:
`_generate_heavy_attrs` fails with an `AttributeError` on
`self.func_grp.smarts_start`. -/
theorem struct_unit_func_grp_resolution :
    ∀ (ch : ChemOracle) (path : String),
      (∀ g, funcGrpOf path = some g →
        strIn g.name path = true ∧
        structUnitInit ch path = Except.ok
          { prist_mol_file := path,
            prist_mol := ch.molFromMolFile path,
            prist_smiles := ch.molToSmiles (ch.molFromMolFile path),
            func_grp := some g,
            heavy_mol := ch.replaceSubstructs (ch.molFromMolFile path)
                g.smarts_start g.smarts_end,
            heavy_mol_file := heavyFileName path g.name,
            heavy_smiles := ch.molToSmiles (ch.replaceSubstructs
                (ch.molFromMolFile path) g.smarts_start g.smarts_end) }) ∧
      (funcGrpOf path = none → ∀ u, structUnitInit ch path ≠ Except.ok u) ∧
      ((∃ g ∈ functionalGroupList, strIn g.name path = true) →
        (funcGrpOf path).isSome = true) := by
  intro ch path
  refine ⟨?_, ?_, ?_⟩
  · intro g hg
    have hg' := hg
    unfold funcGrpOf at hg'
    have hp := List.find?_some hg'
    refine ⟨by simpa using hp, ?_⟩
    unfold structUnitInit
    rw [hg]
  · intro hn u
    unfold structUnitInit
    rw [hn]
    exact fun h => Except.noConfusion h
  · rintro ⟨g, hmem, hp⟩
    unfold funcGrpOf
    rw [List.find?_isSome]
    exact ⟨g, hmem, hp⟩

/-- Claim C8 counterexample: a path containing no registered
functional-group name yields `func_grp = None`, and the construction raises
instead of completing. -/
theorem struct_unit_no_match_fails :
    funcGrpOf ("xyz.mol") = none ∧
      structUnitInit chem0 ("xyz.mol") =
        Except.error SUErr.noneTypeAttribute := by
  refine ⟨by decide, ?_⟩
  unfold structUnitInit
  rw [show funcGrpOf ("xyz.mol") = none from by decide]

/-- Claim C8 witness: a path containing both `amide` and `amine` resolves to
the `amide` entry (earlier in table order) and construction completes with
the substituted outputs. -/
theorem struct_unit_func_grp_resolution_witness :
    funcGrpOf ("amide_amine.mol") = some fgAmide ∧
      structUnitInit chem0 ("amide_amine.mol") = Except.ok
        ⟨"amide_amine.mol", 0, "s", some fgAmide, 0,
          heavyFileName ("amide_amine.mol") ("amide"), "s"⟩ :=
  ⟨by decide,
    ((struct_unit_func_grp_resolution chem0 ("amide_amine.mol")).1 fgAmide
      (by decide)).2⟩

/-! ## Claim C9 -/

theorem foldl_vmin_bounds :
    ∀ (l : List V3) (acc : V3),
      vleq (l.foldl vmin acc) acc ∧ ∀ p ∈ l, vleq (l.foldl vmin acc) p := by
  intro l
  induction l with
  | nil =>
      intro acc
      exact ⟨⟨le_refl _, le_refl _, le_refl _⟩, by simp⟩
  | cons q t ih =>
      intro acc
      obtain ⟨hacc, hmem⟩ := ih (vmin acc q)
      obtain ⟨a1, a2, a3⟩ := hacc
      refine ⟨⟨le_trans a1 (min_le_left _ _), le_trans a2 (min_le_left _ _),
        le_trans a3 (min_le_left _ _)⟩, ?_⟩
      intro p hp
      rcases List.mem_cons.mp hp with h | h
      · subst h
        exact ⟨le_trans a1 (min_le_right _ _), le_trans a2 (min_le_right _ _),
          le_trans a3 (min_le_right _ _)⟩
      · exact hmem p h

theorem foldl_vmax_bounds :
    ∀ (l : List V3) (acc : V3),
      vleq acc (l.foldl vmax acc) ∧ ∀ p ∈ l, vleq p (l.foldl vmax acc) := by
  intro l
  induction l with
  | nil =>
      intro acc
      exact ⟨⟨le_refl _, le_refl _, le_refl _⟩, by simp⟩
  | cons q t ih =>
      intro acc
      obtain ⟨hacc, hmem⟩ := ih (vmax acc q)
      obtain ⟨a1, a2, a3⟩ := hacc
      refine ⟨⟨le_trans (le_max_left _ _) a1, le_trans (le_max_left _ _) a2,
        le_trans (le_max_left _ _) a3⟩, ?_⟩
      intro p hp
      rcases List.mem_cons.mp hp with h | h
      · subst h
        exact ⟨le_trans (le_max_right _ _) a1, le_trans (le_max_right _ _) a2,
          le_trans (le_max_right _ _) a3⟩
      · exact hmem p h

theorem minCorner_le (ps : List V3) (p : V3) (hp : p ∈ ps) :
    vleq (minCorner ps) p := by
  cases ps with
  | nil => cases hp
  | cons q t =>
      rcases List.mem_cons.mp hp with h | h
      · subst h
        exact (foldl_vmin_bounds t p).1
      · exact (foldl_vmin_bounds t q).2 p h

theorem maxCorner_ge (ps : List V3) (p : V3) (hp : p ∈ ps) :
    vleq p (maxCorner ps) := by
  cases ps with
  | nil => cases hp
  | cons q t =>
      rcases List.mem_cons.mp hp with h | h
      · subst h
        exact (foldl_vmax_bounds t p).1
      · exact (foldl_vmax_bounds t q).2 p h

/-- Claim C9: `get_maximum_diameter` is the Euclidean distance between the
per-axis minimum corner and the per-axis maximum corner of the selected
positions (stated on the squared distance, `euclidean` being its square
root): the corners bound every selected position per axis, and on four atoms
at (±50, ±50, 0) the squared diameter is 20000, i.e. the diameter is
100·√2 ≈ 141.42. -/
theorem maximum_diameter_corners :
    (∀ (m : MoleculeM) (ids : Option (List Nat)) (c : Nat),
      getMaximumDiameterSq m ids c =
        distSq (minCorner (selCoords m ids c))
          (maxCorner (selCoords m ids c))) ∧
    (∀ (m : MoleculeM) (ids : Option (List Nat)) (c : Nat) (p : V3),
      p ∈ selCoords m ids c →
        vleq (minCorner (selCoords m ids c)) p ∧
        vleq p (maxCorner (selCoords m ids c))) ∧
    getMaximumDiameterSq sqMol none 0 = 20000 ∧
    Real.sqrt ((getMaximumDiameterSq sqMol none 0 : ℚ) : ℝ) =
      100 * Real.sqrt 2 := by
  have h20 : getMaximumDiameterSq sqMol none 0 = 20000 := by
    norm_num [getMaximumDiameterSq, selCoords, resolveIds, sqMol, atomPos,
      confOf, minCorner, maxCorner, vmin, vmax, distSq, List.range_succ,
      min_def, max_def]
  refine ⟨fun m ids c => rfl,
    fun m ids c p hp => ⟨minCorner_le _ p hp, maxCorner_ge _ p hp⟩, h20, ?_⟩
  rw [h20]
  rw [show ((20000 : ℚ) : ℝ) = 20000 by norm_num]
  rw [show (20000 : ℝ) = 100 ^ 2 * 2 by norm_num]
  rw [Real.sqrt_mul (by positivity) 2, Real.sqrt_sq (by norm_num)]

/-- Claim C9 witness: the corner bounds at the concrete square molecule and
the selected position (50, 50, 0). -/
theorem maximum_diameter_corners_witness :
    (⟨50, 50, 0⟩ : V3) ∈ selCoords sqMol none 0 ∧
      (vleq (minCorner (selCoords sqMol none 0)) ⟨50, 50, 0⟩ ∧
        vleq (⟨50, 50, 0⟩ : V3) (maxCorner (selCoords sqMol none 0))) :=
  ⟨by decide,
    maximum_diameter_corners.2.1 sqMol none 0 ⟨50, 50, 0⟩ (by decide)⟩

/-! ## Claim C10 -/

/-- Claim C10: `get_centroid` divides the summed selected positions by the
size of the atom selection with no guard — for every non-empty explicit
selection the divisor is non-zero and the result is exactly the arithmetic
mean of the selected positions, for the default selection the divisor is the
atom count, while an explicitly passed empty selection reaches the division
with divisor 0; `get_center_of_mass` divides by the total mass, and whenever
that is positive the division-by-zero branch is unreachable. -/
theorem centroid_divisor_nonzero :
    ∀ (m : MoleculeM) (ids : List Nat) (c : Nat),
      (ids ≠ [] →
        centroidDivisor m (some ids) ≠ 0 ∧
        getCentroid m (some ids) c = arithMean (selCoords m (some ids) c)) ∧
      centroidDivisor m (some []) = 0 ∧
      centroidDivisor m none = m.atoms.length ∧
      (0 < comTotalMass m ids →
        comTotalMass m ids ≠ 0 ∧
        getCenterOfMass m (some ids) c =
          V3.div (comWeightedSum m ids c) (comTotalMass m ids)) := by
  intro m ids c
  refine ⟨?_, rfl, ?_, ?_⟩
  · intro hne
    constructor
    · simp only [centroidDivisor, resolveIds]
      intro h
      exact hne (List.length_eq_zero.mp h)
    · simp only [getCentroid, arithMean, selCoords, centroidDivisor,
        resolveIds, List.length_map]
  · simp [centroidDivisor, resolveIds]
  · intro hpos
    exact ⟨ne_of_gt hpos, rfl⟩

/-- Claim C10 witness: a concrete two-atom molecule and the full explicit
selection. -/
theorem centroid_divisor_nonzero_witness :
    (centroidDivisor mol2 (some [0, 1]) ≠ 0 ∧
      getCentroid mol2 (some [0, 1]) 0 =
        arithMean (selCoords mol2 (some [0, 1]) 0)) ∧
      (comTotalMass mol2 [0, 1] ≠ 0 ∧
        getCenterOfMass mol2 (some [0, 1]) 0 =
          V3.div (comWeightedSum mol2 [0, 1] 0) (comTotalMass mol2 [0, 1])) :=
  ⟨(centroid_divisor_nonzero mol2 [0, 1] 0).1 (by decide),
    (centroid_divisor_nonzero mol2 [0, 1] 0).2.2.2 (by
      norm_num [comTotalMass, atomMass, mol2])⟩
